import Mathlib

/-!
Verification of the QA-subsystem repository: a shallow embedding of the
data-handling utilities (`src/utils/data_handling_utils.py`), the FastAPI
application endpoints (`src/application.py`), the CLI entry point
(`src/main.py`), the reader fine-tuning script
(`src/system/fine_tune_model.py`) and the evaluation driver
(`src/dev/evaluation/main.py`), together with theorems settling the
specification claims about them.

External library calls (the haystack pipelines, the nltk sentence
tokenizer, mlflow) are modelled as explicit parameters; Python exceptions
are modelled with `Except`; the filesystem state touched by an operation is
threaded explicitly.
-/

namespace QASubsystem

/-! ## Python exceptions

`PyExc` models the `Exception`-derived values a Python call can raise.
`fileNotFoundError` is singled out because `fine_tune_reader_model` has an
`except FileNotFoundError` clause; every other exception carries its
message. -/

inductive PyExc where
  | fileNotFoundError
  | other (msg : String)
deriving DecidableEq, Repr

/-! ## CLI entry point (`src/main.py`)

`main` parses two boolean flags and dispatches:
`if args.launch: launch() elif args.ingest_data: ingest_data()
else: parser.print_help()`.  `CliRun` records which of the three code paths
ran and whether the process exits without error (no branch raises or calls
`sys.exit` with a nonzero status, so all do). -/

structure CliRun where
  launchedServer : Bool
  ranIngestion : Bool
  printedHelp : Bool
  exitOk : Bool
deriving DecidableEq, Repr

def cliMain (launch ingest_data : Bool) : CliRun :=
  if launch then
    { launchedServer := true, ranIngestion := false, printedHelp := false, exitOk := true }
  else if ingest_data then
    { launchedServer := false, ranIngestion := true, printedHelp := false, exitOk := true }
  else
    { launchedServer := false, ranIngestion := false, printedHelp := true, exitOk := true }

/-! ## `join_punctuation` (`src/utils/data_handling_utils.py`)

The Python function is a generator: `current = next(seq)` runs on the first
advance, so an empty input raises (`StopIteration` escaping a generator
body becomes a `RuntimeError`); we model the produced token sequence as
`Option (List String)`, `none` standing for that error.  The default
`characters='.,;?!:'` becomes `set('.,;?!:')`, a set of one-character
strings, so the test `nxt in characters` holds exactly when the token is
one of those six single characters. -/

def pyJoinChars : List Char := ['.', ',', ';', '?', '!', ':']

def isPunctToken (tok : String) : Bool :=
  match tok.data with
  | [c] => pyJoinChars.contains c
  | _ => false

def joinPunctGo (current : String) : List String → List String
  | [] => [current]
  | nxt :: rest =>
      if isPunctToken nxt then joinPunctGo (current ++ nxt) rest
      else current :: joinPunctGo nxt rest

def join_punctuation (seq : List String) : Option (List String) :=
  match seq with
  | [] => none
  | first :: rest => some (joinPunctGo first rest)

theorem joinPunctGo_length_pos (current : String) (l : List String) :
    1 ≤ (joinPunctGo current l).length := by
  induction l generalizing current with
  | nil => simp [joinPunctGo]
  | cons nxt rest ih =>
      unfold joinPunctGo
      by_cases h : isPunctToken nxt = true
      · simpa [h] using ih (current ++ nxt)
      · simp [h]

/-! ## Reader fine-tuning (`src/system/fine_tune_model.py`)

The directory preamble is
`try: os.path.isdir(save_dir) except FileNotFoundError: os.mkdir(save_dir)`.
`os.path.isdir` returns a boolean and raises no exception on a missing
path, which `os_path_isdir` embeds; the `except` branch is therefore dead.
`create_save_dir_if_absent` returns, inside `Except` (an uncaught exception
would propagate), the pair (does `save_dir` exist afterwards, was
`os.mkdir` invoked). -/

def os_path_isdir (dirExists : Bool) : Except PyExc Bool :=
  .ok dirExists

def create_save_dir_if_absent (dirExists : Bool) : Except PyExc (Bool × Bool) :=
  match os_path_isdir dirExists with
  | .ok _ => .ok (dirExists, false)
  | .error .fileNotFoundError => .ok (true, true)
  | .error e => .error e

/-- Outcome of one `fine_tune_reader_model` call: whether `os.mkdir` ran,
whether `save_dir` existed when `reader.train` started, whether the
function returned normally, and the exception its `except` clause printed,
if any. -/
structure FineTuneRun where
  mkdirCalled : Bool
  saveDirExistsAtTraining : Bool
  returnedNormally : Bool
  loggedError : Option PyExc
deriving DecidableEq, Repr

/-- `fine_tune_reader_model(model, data_dir, train_filename, save_dir)`:
directory preamble, then `FARMReader(...)` (outside any `try`, so a failure
there propagates), then `try: reader.train(...) except Exception as e:
print(e)`.  `readerInit` and `trainResult` stand for the outcomes of the
two library calls. -/
def fine_tune_reader_model (dirExists : Bool) (readerInit : Except PyExc Unit)
    (trainResult : Except PyExc Unit) : FineTuneRun :=
  match create_save_dir_if_absent dirExists with
  | .error _ =>
      { mkdirCalled := false, saveDirExistsAtTraining := dirExists
        returnedNormally := false, loggedError := none }
  | .ok (existsAfter, called) =>
      match readerInit with
      | .error _ =>
          { mkdirCalled := called, saveDirExistsAtTraining := existsAfter
            returnedNormally := false, loggedError := none }
      | .ok _ =>
          match trainResult with
          | .ok _ =>
              { mkdirCalled := called, saveDirExistsAtTraining := existsAfter
                returnedNormally := true, loggedError := none }
          | .error e =>
              { mkdirCalled := called, saveDirExistsAtTraining := existsAfter
                returnedNormally := true, loggedError := some e }

/-! ## Query endpoints (`src/application.py`)

Both `ask_retriever_reader_pipeline` (`POST /extractive-query`) and
`ask_rag_pipeline` (`POST /rag-query`) run their pipeline and then apply
the identical normalization
`if "documents" not in result: result["documents"] = []` followed by
`if "answers" not in result: result["answers"] = []`.  A pipeline result is
modelled as an association list from keys to `PyValue`s (first binding
wins, as in a Python dict); `vlist` is a list value (haystack binds
`answers` to a list of Answer objects and `documents` to a list of
Document objects, both rendered here by their string content). -/

inductive PyValue where
  | vlist (items : List String)
  | vstr (s : String)
deriving DecidableEq, Repr

abbrev ResultMap := List (String × PyValue)

def setDefaultEmptyList (key : String) (r : ResultMap) : ResultMap :=
  if (r.lookup key).isSome then r else r ++ [(key, .vlist [])]

def ensure_answers_documents (r : ResultMap) : ResultMap :=
  setDefaultEmptyList "answers" (setDefaultEmptyList "documents" r)

theorem lookup_append_single_self (r : ResultMap) (key : String) (v : PyValue)
    (h : r.lookup key = none) : (r ++ [(key, v)]).lookup key = some v := by
  induction r with
  | nil => simp [List.lookup]
  | cons p rest ih =>
      simp only [List.lookup, List.cons_append] at h ⊢
      cases hk : (key == p.1) with
      | true => simp [List.lookup, hk] at h
      | false =>
          simp only [List.lookup, hk] at h ⊢
          exact ih h

theorem lookup_append_single_other (r : ResultMap) (key o : String) (v : PyValue)
    (hne : (o == key) = false) : (r ++ [(key, v)]).lookup o = r.lookup o := by
  induction r with
  | nil => simp [List.lookup, hne]
  | cons p rest ih =>
      simp only [List.lookup, List.cons_append]
      cases hk : (o == p.1) with
      | true => simp [List.lookup, hk]
      | false => simp only [List.lookup, hk]; exact ih

theorem lookup_setDefaultEmptyList_present (key : String) (r : ResultMap) (v : PyValue)
    (h : r.lookup key = some v) : (setDefaultEmptyList key r).lookup key = some v := by
  unfold setDefaultEmptyList
  simp [h]

theorem lookup_setDefaultEmptyList_absent (key : String) (r : ResultMap)
    (h : r.lookup key = none) :
    (setDefaultEmptyList key r).lookup key = some (.vlist []) := by
  unfold setDefaultEmptyList
  simp only [h, Option.isSome_none, Bool.false_eq_true, if_false]
  exact lookup_append_single_self r key _ h

theorem lookup_setDefaultEmptyList_other (key o : String) (r : ResultMap)
    (hne : (o == key) = false) :
    (setDefaultEmptyList key r).lookup o = r.lookup o := by
  unfold setDefaultEmptyList
  cases h : (r.lookup key).isSome with
  | true => simp
  | false =>
      simp only [Bool.false_eq_true, if_false]
      exact lookup_append_single_other r key o _ hne

/-! ## DPR pair extraction (`src/utils/data_handling_utils.py`)

`get_query_doc_pairs_from_dpr_file` loads a JSON list of records, each with
a `question` and a list of `positive_ctxs` (each carrying a `text`).  In
the source, `query_doc_pairs.append({...})` sits at the indentation level
of `for d in data:` — outside the record loop — so the append runs once per
file, after both loops, reading whatever the loop variables `question` and
`document` last held.  The two variables are modelled as `Option String`
state (`none` = unbound; an append while either is unbound would raise
`UnboundLocalError`, modelled as `none` overall). -/

structure PositiveCtx where
  text : String
deriving DecidableEq, Repr

structure DprRecord where
  question : String
  positive_ctxs : List PositiveCtx
deriving DecidableEq, Repr

structure QueryDocPair where
  question : String
  document : String
deriving DecidableEq, Repr

def dprLoopState (data : List DprRecord) : Option String × Option String :=
  data.foldl
    (fun st d =>
      (some d.question, d.positive_ctxs.foldl (fun _ ctx => some ctx.text) st.2))
    (none, none)

def get_query_doc_pairs_from_dpr_file (data : List DprRecord) :
    Option (List QueryDocPair) :=
  match dprLoopState data with
  | (some q, some doc) => some [{ question := q, document := doc }]
  | _ => none

/-! ## File upload endpoint (`src/application.py`)

`upload_files` writes each uploaded file into the upload directory under a
fresh uuid-prefixed name, runs the indexing pipeline on the collected
paths, and — only if the run returned — serializes embeddings and, unless
`keep_files`, unlinks the written paths.  No `try`/`finally` protects the
unlink loop, so an exception from `indexing_pipeline.run` propagates with
the files still on disk.  The upload directory is modelled as the list of
file names it contains; `run` stands for `indexing_pipeline.run` (the
`recreate_index` flag and the ndarray-to-list embedding conversion touch
the document store and the returned documents, not the upload directory,
and are not modelled further). -/

abbrev PipelineResult := List String

structure UploadOutcome where
  outcome : Except String PipelineResult
  dirAfter : List String
deriving Repr

def upload_files (run : List String → Except String PipelineResult)
    (keep_files : Bool) (filePaths : List String) (dirBefore : List String) :
    UploadOutcome :=
  let dirWritten := dirBefore ++ filePaths
  match run filePaths with
  | .error e => { outcome := .error e, dirAfter := dirWritten }
  | .ok result =>
      if keep_files then { outcome := .ok result, dirAfter := dirWritten }
      else
        { outcome := .ok result
          dirAfter := dirWritten.filter (fun p => !(filePaths.contains p)) }

/-! ## Experiment driver (`src/dev/evaluation/main.py`)

`run_experiment` creates a `tempfile.TemporaryDirectory`, indexes labels,
collects label/corpus paths, loads the two pipelines from YAML, calls
`Pipeline.execute_eval_run(...)`, and then calls `temp_dir.cleanup()` as
its final statement — not inside `try`/`finally`, so an exception from any
step skips the cleanup call.  `prep` bundles the outcome of the steps
between directory creation and the eval run; `evalRun` is the outcome of
`Pipeline.execute_eval_run`. -/

structure ExperimentRun where
  outcome : Except String Unit
  tempDirCleaned : Bool
deriving Repr

def run_experiment (prep : Except String Unit) (evalRun : Except String Unit) :
    ExperimentRun :=
  match prep with
  | .error e => { outcome := .error e, tempDirCleaned := false }
  | .ok _ =>
      match evalRun with
      | .error e => { outcome := .error e, tempDirCleaned := false }
      | .ok _ => { outcome := .ok (), tempDirCleaned := true }

/-! ## Dataset split (`src/utils/data_handling_utils.py`)

`split_squad_dataset` loads a SQuAD-format file, counts the labelled
examples with `SquadData(data).count()`, shuffles `data["data"]`, and then
iterates over the articles: each iteration first adds the article's
question/answer count (`len(paragraph["qas"])`, summed over its
paragraphs) to `counter`, then — if `counter >= round(num_of_examples *
split_ratio)` — breaks *without appending* the article; otherwise the
article is appended to `test_set`.  `train_set` is `data[len(test_set):]`.
The dev file gets `test_set`, the train file the rest, and the function
prints `num_of_examples - counter` and `counter` as the train/dev counts.
`data` here is the already-shuffled article order (`random.shuffle`
permutes in place before the loop); `thr` is the Python value
`round(num_of_examples * split_ratio)`, taken as a parameter because
CPython computes it in binary floating point (for ten one-question
articles at ratio 0.1 it is `round(0.1 * 10) = round(1.0) = 1`). -/

structure Paragraph where
  qas : List String
deriving DecidableEq, Repr

structure Article where
  title : String
  paragraphs : List Paragraph
deriving DecidableEq, Repr

def articleQaCount (a : Article) : Nat :=
  (a.paragraphs.map (fun p => p.qas.length)).sum

def num_of_examples (data : List Article) : Nat :=
  (data.map articleQaCount).sum

def splitLoop (thr : Nat) : Nat → List Article → List Article → List Article × Nat
  | counter, acc, [] => (acc, counter)
  | counter, acc, a :: rest =>
      let counter' := counter + articleQaCount a
      if thr ≤ counter' then (acc, counter')
      else splitLoop thr counter' (acc ++ [a]) rest

structure SplitFiles where
  dev : List Article
  train : List Article
  printedTrainCount : Nat
  printedDevCount : Nat
deriving DecidableEq, Repr

def split_squad_dataset (thr : Nat) (data : List Article) : SplitFiles :=
  let total := num_of_examples data
  let loopOut := splitLoop thr 0 [] data
  { dev := loopOut.1
    train := data.drop loopOut.1.length
    printedTrainCount := total - loopOut.2
    printedDevCount := loopOut.2 }

/-- The cumulative question/answer totals of the article prefixes of
`data`, in order — `[0, count a1, count a1 + count a2, ...]`.  Stated from
the claim's words to express "smallest cumulative sum of whole (shuffled)
articles that is >= threshold". -/
def prefixQaSums (data : List Article) : List Nat :=
  (List.range (data.length + 1)).map (fun k => num_of_examples (data.take k))

/-- The claim-side dev size: the smallest cumulative whole-article
question/answer sum reaching the threshold (`none` if no prefix reaches
it). -/
def specDevCount (thr : Nat) (data : List Article) : Option Nat :=
  ((prefixQaSums data).filter (fun s => decide (thr ≤ s))).head?

/-- Ten articles of one paragraph with a single question each: the failing
input for the split claim. -/
def tenOneQaArticles : List Article :=
  List.replicate 10 { title := "a", paragraphs := [{ qas := ["q"] }] }

/-! ## `remove_incomplete_sentences` (`src/utils/data_handling_utils.py`)

The function downloads the punkt model, splits `text` with
`nltk.sent_tokenize` (modelled as an explicit `sent_tokenize` parameter —
the tokenizer preserves a sentence's internal whitespace, newlines
included), and keeps the sentences `s` with
`re.match(r'.*[\.\;!]$', s.strip())`, joining the kept ones with
`' '.join`.  `pythonStrip` is `str.strip()` on the ASCII whitespace
characters; `re_match_dotstar_end` transcribes the regex engine's search
for the anchored pattern `.*[.;!]$` over the stripped sentence: a match
exists iff some position `k` holds `.`, `;` or `!`, every earlier
character can be consumed by `.` (which does not match a newline), and `$`
matches right after `k` — at the end of the string, or before a single
trailing newline. -/

def isPySpace (c : Char) : Bool :=
  c = ' ' || c = '\t' || c = '\n' || c = '\r' || c = '\x0b' || c = '\x0c'

def pythonStrip (s : String) : String :=
  ⟨((s.data.dropWhile isPySpace).reverse.dropWhile isPySpace).reverse⟩

def sentenceEndChar (c : Char) : Bool :=
  c = '.' || c = ';' || c = '!'

def endCharAt (cs : List Char) (k : Nat) : Bool :=
  (cs[k]?).elim false sentenceEndChar

def dollarAt (cs : List Char) (k : Nat) : Bool :=
  (k + 1 == cs.length) || ((k + 2 == cs.length) && (cs[k + 1]? == some '\n'))

def re_match_dotstar_end (cs : List Char) : Bool :=
  (List.range cs.length).any (fun k =>
    (cs.take k).all (fun c => !(c == '\n')) && endCharAt cs k && dollarAt cs k)

def remove_incomplete_sentences (sent_tokenize : String → List String)
    (text : String) : String :=
  let sentences := sent_tokenize text
  let complete_sentences :=
    sentences.foldl
      (fun acc sentence =>
        if re_match_dotstar_end (pythonStrip sentence).data then acc ++ [sentence]
        else acc)
      []
  String.intercalate " " complete_sentences

/-- The claim's keep-predicate, from the spec's words: the sentence's
trimmed text ends in `.`, `;` or `!`. -/
def trimmedEndsInTerminal (s : String) : Bool :=
  ((pythonStrip s).data.getLast?).elim false sentenceEndChar

/-- What the code's regex actually accepts on a stripped sentence: a
nonempty trimmed text ending in `.`, `;` or `!` with no newline anywhere
before that final character. -/
def completeChars (t : List Char) : Bool :=
  (t.getLast?.elim false sentenceEndChar) && t.dropLast.all (fun c => !(c == '\n'))

def trimmedCompleteSentence (s : String) : Bool :=
  completeChars (pythonStrip s).data

theorem head?_dropWhile_pred_false {α : Type} (p : α → Bool) (l : List α) (c : α)
    (h : (l.dropWhile p).head? = some c) : p c = false := by
  induction l with
  | nil => cases h
  | cons a l ih =>
      rw [List.dropWhile_cons] at h
      cases hp : p a
      · rw [hp] at h
        simp only [Bool.false_eq_true, if_false, List.head?_cons, Option.some.injEq] at h
        rw [← h]; exact hp
      · rw [hp] at h
        simp only [if_true] at h
        exact ih h

theorem pythonStrip_getLast?_not_space (s : String) (c : Char)
    (h : (pythonStrip s).data.getLast? = some c) : isPySpace c = false := by
  have h' : (((s.data.dropWhile isPySpace).reverse.dropWhile isPySpace).reverse).getLast?
      = some c := h
  rw [List.getLast?_reverse] at h'
  exact head?_dropWhile_pred_false isPySpace _ c h'

theorem stripped_no_trailing_newline (s : String) :
    ∀ c, (pythonStrip s).data.getLast? = some c → (c == '\n') = false := by
  intro c h
  have hsp := pythonStrip_getLast?_not_space s c h
  cases hc : (c == '\n') with
  | false => rfl
  | true =>
      exfalso
      have hce : c = '\n' := eq_of_beq hc
      rw [hce] at hsp
      simp [isPySpace] at hsp

theorem foldl_append_eq_filter {α : Type} (p : α → Bool) (l acc : List α) :
    l.foldl (fun acc s => if p s then acc ++ [s] else acc) acc = acc ++ l.filter p := by
  induction l generalizing acc with
  | nil => simp
  | cons a l ih =>
      simp only [List.foldl, List.filter]
      cases hp : p a with
      | false => simp [hp, ih]
      | true => simp [hp, ih]

theorem re_match_eq_completeChars_of_no_trailing_newline (t : List Char)
    (h : ∀ c, t.getLast? = some c → (c == '\n') = false) :
    re_match_dotstar_end t = completeChars t := by
  rw [Bool.eq_iff_iff]
  unfold re_match_dotstar_end completeChars
  rw [List.any_eq_true]
  constructor
  · rintro ⟨k, hk, hcond⟩
    rw [List.mem_range] at hk
    simp only [Bool.and_eq_true] at hcond
    obtain ⟨⟨htake, hend⟩, hdollar⟩ := hcond
    unfold dollarAt at hdollar
    simp only [Bool.or_eq_true, Bool.and_eq_true, beq_iff_eq] at hdollar
    cases hdollar with
    | inl h1 =>
        have hlast : t.getLast? = t[k]? := by
          rw [List.getLast?_eq_getElem?]
          congr 1
          omega
        unfold endCharAt at hend
        cases hget : t[k]? with
        | none => rw [hget] at hend; cases hend
        | some c =>
            rw [hget] at hend
            rw [hlast, hget]
            simp only [Option.elim_some, Bool.and_eq_true]
            refine ⟨hend, ?_⟩
            rw [List.dropLast_eq_take]
            have hkk : t.length - 1 = k := by omega
            rw [hkk]
            exact htake
    | inr h2 =>
        obtain ⟨hlen, hn⟩ := h2
        have hlast : t.getLast? = some '\n' := by
          rw [List.getLast?_eq_getElem?]
          have hix : t.length - 1 = k + 1 := by omega
          rw [hix]
          exact hn
        have := h '\n' hlast
        simp at this
  · intro hc
    cases hlastq : t.getLast? with
    | none => rw [hlastq] at hc; simp at hc
    | some c =>
        rw [hlastq] at hc
        simp only [Option.elim_some, Bool.and_eq_true] at hc
        obtain ⟨hend, hall⟩ := hc
        have hne : t ≠ [] := by
          intro h0
          rw [h0] at hlastq
          cases hlastq
        have hpos : 1 ≤ t.length := List.length_pos.mpr hne
        refine ⟨t.length - 1, ?_, ?_⟩
        · rw [List.mem_range]; omega
        · simp only [Bool.and_eq_true]
          refine ⟨⟨?_, ?_⟩, ?_⟩
          · rw [← List.dropLast_eq_take]; exact hall
          · unfold endCharAt
            have hg : t[t.length - 1]? = some c := by
              rw [← List.getLast?_eq_getElem?]; exact hlastq
            rw [hg]
            exact hend
          · unfold dollarAt
            simp only [Bool.or_eq_true, Bool.and_eq_true, beq_iff_eq]
            left
            omega

theorem re_match_strip_eq_trimmedComplete (s : String) :
    re_match_dotstar_end (pythonStrip s).data = trimmedCompleteSentence s :=
  re_match_eq_completeChars_of_no_trailing_newline (pythonStrip s).data
    (stripped_no_trailing_newline s)

end QASubsystem

namespace QASubsystemClaims

open QASubsystem

/-- Claim C9: exactly one CLI action runs per invocation: `--launch` (alone
or with `--ingest_data`) launches the server and does not ingest; only
`--ingest_data` ingests; neither flag prints usage help and exits without
error, running neither action. -/
theorem cli_dispatch_exactly_one :
    (∀ ingest : Bool, cliMain true ingest =
      { launchedServer := true, ranIngestion := false, printedHelp := false, exitOk := true }) ∧
    cliMain false true =
      { launchedServer := false, ranIngestion := true, printedHelp := false, exitOk := true } ∧
    cliMain false false =
      { launchedServer := false, ranIngestion := false, printedHelp := true, exitOk := true } := by
  refine ⟨fun ingest => ?_, rfl, rfl⟩
  cases ingest <;> rfl

/-- Claim C10: `join_punctuation` on the empty sequence errors on the first
advance (modelled as `none`), and on every non-empty sequence yields at
least one token. -/
theorem join_punctuation_nonempty_input :
    join_punctuation [] = none ∧
    ∀ (first : String) (rest : List String),
      ∃ out, join_punctuation (first :: rest) = some out ∧ 1 ≤ out.length := by
  refine ⟨rfl, fun first rest => ⟨joinPunctGo first rest, rfl, ?_⟩⟩
  exact joinPunctGo_length_pos first rest

/-- Claim C8: every exception raised by the `reader.train` call inside
`fine_tune_reader_model` is caught and logged and the function returns
normally (the preamble never raises and the reader was constructed
successfully, i.e. `readerInit = .ok ()`). -/
theorem fine_tune_swallows_training_errors (dirExists : Bool) (e : PyExc) :
    (fine_tune_reader_model dirExists (.ok ()) (.error e)).returnedNormally = true ∧
    (fine_tune_reader_model dirExists (.ok ()) (.error e)).loggedError = some e := by
  cases dirExists <;> exact ⟨rfl, rfl⟩

/-- Claim C7 fails on the code: with a nonexistent output directory, the
preamble calls `os.path.isdir`, which returns `False` without raising, so
the `except FileNotFoundError: os.mkdir(save_dir)` branch never runs and
the directory is still absent when training begins. -/
theorem save_dir_never_created :
    create_save_dir_if_absent false = .ok (false, false) ∧
    ∀ (readerInit trainResult : Except PyExc Unit),
      (fine_tune_reader_model false readerInit trainResult).mkdirCalled = false ∧
      (fine_tune_reader_model false readerInit trainResult).saveDirExistsAtTraining = false := by
  refine ⟨rfl, fun readerInit trainResult => ?_⟩
  cases readerInit <;> cases trainResult <;> exact ⟨rfl, rfl⟩

/-- Claim C2: after the normalization shared by the extractive-query and
RAG-query handlers, the response map contains both an `answers` and a
`documents` key, each bound to a list — the empty list whenever the
pipeline result lacked the key.  The hypotheses record the haystack
pipeline contract that when a result does carry one of the two keys, the
value is a list; with neither key present they hold vacuously. -/
theorem response_always_has_answers_documents (r : ResultMap)
    (hans : ∀ v, r.lookup "answers" = some v → ∃ xs, v = PyValue.vlist xs)
    (hdoc : ∀ v, r.lookup "documents" = some v → ∃ xs, v = PyValue.vlist xs) :
    ∃ xs ys,
      (ensure_answers_documents r).lookup "answers" = some (PyValue.vlist xs) ∧
      (ensure_answers_documents r).lookup "documents" = some (PyValue.vlist ys) ∧
      (r.lookup "answers" = none → xs = []) ∧
      (r.lookup "documents" = none → ys = []) := by
  have hne_da : (("documents" : String) == "answers") = false := by decide
  have hne_ad : (("answers" : String) == "documents") = false := by decide
  unfold ensure_answers_documents
  have hAdoc : (setDefaultEmptyList "documents" r).lookup "answers" = r.lookup "answers" :=
    lookup_setDefaultEmptyList_other "documents" "answers" r hne_ad
  cases hd : r.lookup "documents" with
  | none =>
      have hDoc1 : (setDefaultEmptyList "documents" r).lookup "documents" =
          some (PyValue.vlist []) := lookup_setDefaultEmptyList_absent "documents" r hd
      cases ha : r.lookup "answers" with
      | none =>
          refine ⟨[], [], ?_, ?_, fun _ => rfl, fun _ => rfl⟩
          · exact lookup_setDefaultEmptyList_absent "answers" _ (hAdoc.trans ha)
          · exact (lookup_setDefaultEmptyList_other "answers" "documents" _ hne_da).trans hDoc1
      | some v =>
          obtain ⟨xs, rfl⟩ := hans v ha
          refine ⟨xs, [], ?_, ?_,
            fun hnone => absurd hnone (Option.some_ne_none _), fun _ => rfl⟩
          · exact lookup_setDefaultEmptyList_present "answers" _ _ (hAdoc.trans ha)
          · exact (lookup_setDefaultEmptyList_other "answers" "documents" _ hne_da).trans hDoc1
  | some w =>
      obtain ⟨ys, rfl⟩ := hdoc w hd
      have hDoc1 : (setDefaultEmptyList "documents" r).lookup "documents" =
          some (PyValue.vlist ys) := lookup_setDefaultEmptyList_present "documents" r _ hd
      cases ha : r.lookup "answers" with
      | none =>
          refine ⟨[], ys, ?_, ?_, fun _ => rfl,
            fun hnone => absurd hnone (Option.some_ne_none _)⟩
          · exact lookup_setDefaultEmptyList_absent "answers" _ (hAdoc.trans ha)
          · exact (lookup_setDefaultEmptyList_other "answers" "documents" _ hne_da).trans hDoc1
      | some v =>
          obtain ⟨xs, rfl⟩ := hans v ha
          refine ⟨xs, ys, ?_, ?_,
            fun hnone => absurd hnone (Option.some_ne_none _),
            fun hnone => absurd hnone (Option.some_ne_none _)⟩
          · exact lookup_setDefaultEmptyList_present "answers" _ _ (hAdoc.trans ha)
          · exact (lookup_setDefaultEmptyList_other "answers" "documents" _ hne_da).trans hDoc1

/-- Witness for C2 at a pipeline result containing neither key: the
normalized response binds both keys to the empty list. -/
theorem response_always_has_answers_documents_witness :
    ∃ xs ys,
      (ensure_answers_documents []).lookup "answers" = some (PyValue.vlist xs) ∧
      (ensure_answers_documents []).lookup "documents" = some (PyValue.vlist ys) ∧
      (([] : ResultMap).lookup "answers" = none → xs = []) ∧
      (([] : ResultMap).lookup "documents" = none → ys = []) := by
  refine response_always_has_answers_documents [] ?_ ?_ <;> intro v h <;> cases h

/-- Claim C1 fails on the code: on a two-record DPR input the function
returns a single (question, document) pair — the last record's question
with that record's last positive context — because the `append` sits
outside the record loop.  The claim (and the code's evident intent: the
loop re-binds `question` and `document` per record) is one pair per
record, here two pairs. -/
theorem dpr_two_records_yield_single_pair :
    get_query_doc_pairs_from_dpr_file
        [{ question := "q1", positive_ctxs := [{ text := "a1" }] },
         { question := "q2", positive_ctxs := [{ text := "b1" }, { text := "b2" }] }] =
      some [{ question := "q2", document := "b2" }] ∧
    Option.map List.length
        (get_query_doc_pairs_from_dpr_file
          [{ question := "q1", positive_ctxs := [{ text := "a1" }] },
           { question := "q2", positive_ctxs := [{ text := "b1" }, { text := "b2" }] }]) =
      some 1 := ⟨rfl, rfl⟩

/-- Claim C3 counterexample: with `keep_files` unset and an indexing run
that raises, the request's uploaded file is still in the upload directory
when the exception propagates — the claim's "regardless of whether the
indexing-pipeline run succeeds or raises" fails. -/
theorem upload_files_error_leaves_file :
    (upload_files (fun _ => .error "indexing failed") false ["u1_doc.txt"] []).dirAfter =
      ["u1_doc.txt"] ∧
    (upload_files (fun _ => .error "indexing failed") false ["u1_doc.txt"] []).outcome =
      .error "indexing failed" := ⟨rfl, rfl⟩

/-- Claim C3 amended: with `keep_files` unset, whenever the
indexing-pipeline run returns normally, none of the request's uploaded
files remain in the upload directory; when the run raises, the exception
propagates with the files still present. -/
theorem upload_files_cleanup_on_success (run : List String → Except String PipelineResult)
    (filePaths dirBefore : List String) (res : PipelineResult)
    (h : run filePaths = .ok res) :
    ∀ f ∈ filePaths, f ∉ (upload_files run false filePaths dirBefore).dirAfter := by
  intro f hf hmem
  simp only [upload_files, h, Bool.false_eq_true, if_false] at hmem
  have hq := (List.mem_filter.mp hmem).2
  simp at hq
  exact hq hf

/-- Witness for the amended C3 at a one-file request whose indexing run
succeeds: the uploaded file is gone from the upload directory. -/
theorem upload_files_cleanup_on_success_witness :
    (upload_files (fun _ => .ok []) false ["w1_a.txt"] []).dirAfter.contains "w1_a.txt"
      = false := by
  have h := upload_files_cleanup_on_success (fun _ => .ok []) ["w1_a.txt"] [] [] rfl
    "w1_a.txt" (by simp)
  simpa using h

/-- Claim C6 counterexample: when `Pipeline.execute_eval_run` raises, the
`temp_dir.cleanup()` call at the end of `run_experiment` is skipped — the
cleanup is not unconditional. -/
theorem run_experiment_error_skips_cleanup :
    (run_experiment (.ok ()) (.error "eval run failed")).tempDirCleaned = false ∧
    (run_experiment (.ok ()) (.error "eval run failed")).outcome =
      .error "eval run failed" := ⟨rfl, rfl⟩

/-- Claim C6 amended: the temporary directory's explicit `cleanup()` runs
exactly when every step of `run_experiment`, including
`Pipeline.execute_eval_run`, returns normally; a raising step propagates
its exception and skips the cleanup call. -/
theorem run_experiment_cleanup_iff_success (prep evalRun : Except String Unit) :
    (run_experiment prep evalRun).tempDirCleaned = true ↔
      (run_experiment prep evalRun).outcome = .ok () := by
  cases prep with
  | error e => simp [run_experiment]
  | ok u =>
      cases u
      cases evalRun with
      | error e => simp [run_experiment]
      | ok u => cases u; simp [run_experiment]

/-- Claim C4 fails on the code: on ten shuffled one-question articles with
threshold `round(0.1 * 10) = 1`, the loop adds the first article's count,
sees `counter >= 1`, and breaks *before* appending, so the dev file is
empty (0 pairs) although the smallest cumulative whole-article sum `>= 1`
is 1; all ten articles land in the train file, and the printed "dev set
instances: 1" contradicts the written dev file. -/
theorem split_dev_misses_crossing_article :
    (split_squad_dataset 1 tenOneQaArticles).dev = [] ∧
    num_of_examples (split_squad_dataset 1 tenOneQaArticles).dev = 0 ∧
    specDevCount 1 tenOneQaArticles = some 1 ∧
    (split_squad_dataset 1 tenOneQaArticles).train = tenOneQaArticles ∧
    (split_squad_dataset 1 tenOneQaArticles).printedDevCount = 1 := by
  refine ⟨rfl, rfl, ?_, rfl, rfl⟩
  decide

/-- Claim C5 counterexample: for the tokenized sentence "a\nb." — whose
trimmed text ends in '.', so the claim's filter keeps it — the regex
`.*[.;!]$` rejects it because `.` cannot consume the interior newline, and
the function returns "" instead of the sentence. -/
theorem remove_incomplete_drops_newline_sentence :
    trimmedEndsInTerminal "a\nb." = true ∧
    remove_incomplete_sentences (fun _ => ["a\nb."]) "a\nb." = "" ∧
    remove_incomplete_sentences (fun _ => ["a\nb."]) "a\nb." ≠
      String.intercalate " " (List.filter trimmedEndsInTerminal ["a\nb."]) := by
  refine ⟨by decide, by decide, by decide⟩

/-- Claim C5 amended: `remove_incomplete_sentences` splits the text with
the sentence tokenizer and keeps exactly those sentences whose trimmed
text is nonempty, ends in '.', ';' or '!' *and has no newline before that
final character*, joining the kept sentences with single spaces (in
particular it returns "" when no sentence qualifies). -/
theorem remove_incomplete_sentences_eq_filter
    (sent_tokenize : String → List String) (text : String) :
    remove_incomplete_sentences sent_tokenize text =
      String.intercalate " " ((sent_tokenize text).filter trimmedCompleteSentence) := by
  unfold remove_incomplete_sentences
  dsimp only
  rw [foldl_append_eq_filter (fun sentence =>
    re_match_dotstar_end (pythonStrip sentence).data)]
  rw [List.nil_append]
  congr 1
  exact List.filter_congr (fun s _ => re_match_strip_eq_trimmedComplete s)

end QASubsystemClaims
